import Mathlib

/-!
Shallow embedding of the websocket subscription handler
(`src/api/src/websocket/handlers/subscribe.ts`) of the repository.

The handler keeps an in-memory registry `subscriptions : Record<string, Set<Subscription>>`
mapping a collection name to the set of live subscriptions on it.  We model the
record as an insertion-ordered association list and the javascript `Set` as an
insertion-ordered list; `Set` identity of subscription objects is modelled by a
numeric identity tag `sid` handed out by a counter, so `Set.delete`/`Set.add`
become removal/append keyed on `sid`.  External collaborators (`getSchema`,
`refreshAccountability`, `ItemsService.readOne`, `ItemsService.readByQuery`,
`MetaService.getMetaForQuery`, `sanitizeQuery`) are oracles collected in `Env`;
fallible ones return `Except`.
-/

namespace DirectusWS

abbrev Err := Nat
abbrev ItemKey := Nat
abbrev Payload := List (String × String)

structure Acc where
  admin : Bool
  tok : Nat
deriving DecidableEq, Repr

/-- A sanitized query; `meta` models the presence of the `meta` key
(`'meta' in query`), `val` abstracts the rest.  The default value models the
empty object used by `subscription.query ?? \x7b\x7d`. -/
structure Query where
  meta : Bool
  val : Nat
deriving DecidableEq, Repr, Inhabited

inductive WSAction
  | create
  | update
  | delete
deriving DecidableEq, Repr

/-- `event.split('.').pop()` of the hook event name / the `action` literal. -/
def actionName : WSAction → String
  | .create => "create"
  | .update => "update"
  | .delete => "delete"

/-- `WebSocketEvent`: the normalized change event published on the bus. -/
structure WebSocketEvent where
  action : WSAction
  collection : String
  payload : Payload
  key : Option ItemKey
  keys : Option (List ItemKey)
deriving DecidableEq, Repr

/-- One registered subscription.  `sid` is the object identity tag (see module
comment); the remaining fields are the fields built in `onMessage`. -/
structure Subscription where
  sid : Nat
  client : Nat
  collection : String
  item : Option ItemKey
  query : Option Query
  uid : Option String
deriving DecidableEq, Repr

/-- `this.subscriptions : Record<string, Set<Subscription>>`. -/
abbrev Registry := List (String × List Subscription)

structure Schema where
  collections : List String
deriving DecidableEq, Repr

/-- Handler state: the registry, each client's mutable `accountability`
field, and the identity counter for freshly created subscription objects. -/
structure HandlerState where
  subscriptions : Registry
  clientAcc : List (Nat × Option Acc)
  nextSid : Nat
deriving DecidableEq, Repr

def getAcc (m : List (Nat × Option Acc)) (c : Nat) : Option Acc :=
  match m.find? (fun kv => kv.1 == c) with
  | some kv => kv.2
  | none => none

def setAcc (m : List (Nat × Option Acc)) (c : Nat) (a : Option Acc) :
    List (Nat × Option Acc) :=
  if m.any (fun kv => kv.1 == c) then
    m.map (fun kv => if kv.1 == c then (c, a) else kv)
  else
    m ++ [(c, a)]

/-- `this.subscriptions[k]` (record field access). -/
def regLookup (reg : Registry) (k : String) : Option (List Subscription) :=
  match reg.find? (fun kl => kl.1 == k) with
  | some kl => some kl.2
  | none => none

/-- `this.subscriptions[k] = l` for a key that is already present. -/
def regSet (reg : Registry) (k : String) (l : List Subscription) : Registry :=
  reg.map (fun kl => if kl.1 == k then (k, l) else kl)

/-- `Set.add`: appends unless the same object (same `sid`) is present. -/
def setAdd (l : List Subscription) (s : Subscription) : List Subscription :=
  if l.any (fun t => t.sid == s.sid) then l else l ++ [s]

/-- `SubscribeHandler.subscribe`: create the set for the collection when
absent, then add the subscription to it. -/
def subscribeReg (reg : Registry) (s : Subscription) : Registry :=
  match regLookup reg s.collection with
  | none => reg ++ [(s.collection, [s])]
  | some l => regSet reg s.collection (setAdd l s)

/-- `SubscribeHandler.getSubscription`: scan the sets of all collections in
record order and return the first subscription whose `uid` matches. -/
def getSubscription (reg : Registry) (u : String) : Option Subscription :=
  reg.findSome? (fun kl => kl.2.find? (fun s => s.uid == some u))

/-- `this.subscriptions[subscription.collection]?.delete(subscription)`. -/
def regDelete (reg : Registry) (s : Subscription) : Registry :=
  reg.map (fun kl =>
    if kl.1 == s.collection then
      (kl.1, kl.2.filter (fun t => !(t.sid == s.sid)))
    else kl)

/-- The `uid === undefined` branch of `unsubscribe`: delete every
subscription of the client from every collection's set. -/
def removeAllFor (reg : Registry) (c : Nat) : Registry :=
  reg.map (fun kl => (kl.1, kl.2.filter (fun t => !(t.client == c))))

/-- `SubscribeHandler.unsubscribe(client, uid?)`. -/
def unsubscribeReg (reg : Registry) (c : Nat) : Option String → Registry
  | some u =>
    match getSubscription reg u with
    | some s => if s.client == c then regDelete reg s else reg
    | none => reg
  | none => removeAllFor reg c

/-- External collaborators of the handler, as oracles. -/
structure Env where
  getSchema : Except Err Schema
  refreshAcc : Option Acc → Except Err Acc
  readOne : Schema → Option Acc → String → ItemKey → Query → Except Err Payload
  readByQuery : Schema → Option Acc → String → Query → Except Err Payload
  getMeta : Schema → Option Acc → String → Query → Payload
  sanitizeQuery : Nat → Option Acc → Query

/-- The `\x7b event, payload, meta? \x7d` record returned by the payload helpers. -/
structure SubResult where
  event : String
  payload : Payload
  meta : Option Payload
deriving DecidableEq, Repr

/-- `SubscribeHandler.getSinglePayload` (callers guarantee `item` is present;
`subscription.item!` is modelled by `Option.getD`). -/
def getSinglePayload (env : Env) (sub : Subscription) (acc : Option Acc)
    (schema : Schema) (event : String) : Except Err SubResult :=
  let query := sub.query.getD default
  let id := sub.item.getD 0
  match env.readOne schema acc sub.collection id query with
  | .error e => .error e
  | .ok p =>
      .ok { event := event, payload := p,
            meta := if query.meta then
                some (env.getMeta schema acc sub.collection query)
              else none }

/-- `SubscribeHandler.getMultiPayload`. -/
def getMultiPayload (env : Env) (sub : Subscription) (acc : Option Acc)
    (schema : Schema) (event : String) : Except Err SubResult :=
  let query := sub.query.getD default
  match env.readByQuery schema acc sub.collection query with
  | .error e => .error e
  | .ok p =>
      .ok { event := event, payload := p,
            meta := if query.meta then
                some (env.getMeta schema acc sub.collection query)
              else none }

/-- The `'item' in subscription ? getSinglePayload : getMultiPayload` choice
made both in `dispatch` and in `onMessage`. -/
def readPayload (env : Env) (sub : Subscription) (acc : Option Acc)
    (schema : Schema) (event : String) : Except Err SubResult :=
  if sub.item.isSome then getSinglePayload env sub acc schema event
  else getMultiPayload env sub acc schema event

inductive WsErr
  | invalidCollection (uid : Option String)
  | svc (e : Err)
deriving DecidableEq, Repr

/-- An outbound frame `fmtMessage('subscription', result, uid)`. -/
structure Frame where
  event : String
  payload : Payload
  meta : Option Payload
  uid : Option String
deriving DecidableEq, Repr

/-- What the handler pushes to a connection: a subscription frame via
`client.send`, or an error frame via `handleWebsocketException`. -/
inductive Output
  | send (client : Nat) (frame : Frame)
  | error (client : Nat) (e : WsErr)
deriving DecidableEq, Repr

def Output.target : Output → Nat
  | .send c _ => c
  | .error c _ => c

/-- The body of the `for (const subscription of subscriptions)` loop of
`SubscribeHandler.dispatch`: refresh the client's accountability, fetch the
schema, run the read, and push either the result or the error to that
client. -/
def procSub (env : Env) (ev : WebSocketEvent) (m : List (Nat × Option Acc))
    (sub : Subscription) : List (Nat × Option Acc) × Output :=
  match env.refreshAcc (getAcc m sub.client) with
  | .error e => (m, .error sub.client (.svc e))
  | .ok a =>
    let m1 := setAcc m sub.client (some a)
    match env.getSchema with
    | .error e => (m1, .error sub.client (.svc e))
    | .ok schema =>
      match readPayload env sub (some a) schema (actionName ev.action) with
      | .error e => (m1, .error sub.client (.svc e))
      | .ok res =>
          (m1, .send sub.client ⟨res.event, res.payload, res.meta, sub.uid⟩)

def dispatchLoop (env : Env) (ev : WebSocketEvent) :
    List (Nat × Option Acc) → List Subscription →
    List (Nat × Option Acc) × List Output
  | m, [] => (m, [])
  | m, s :: rest =>
    let r1 := procSub env ev m s
    let r2 := dispatchLoop env ev r1.1 rest
    (r2.1, r1.2 :: r2.2)

/-- `SubscribeHandler.dispatch`: iterate `this.subscriptions[event.collection]
?? new Set()`. -/
def dispatch (env : Env) (st : HandlerState) (ev : WebSocketEvent) :
    HandlerState × List Output :=
  let snap := (regLookup st.subscriptions ev.collection).getD []
  let r := dispatchLoop env ev st.clientAcc snap
  ({ st with clientAcc := r.1 }, r.2)

/-- An inbound `SUBSCRIBE` message (already zod-validated shape). -/
structure SubscribeMessage where
  collection : String
  item : Option ItemKey
  query : Option Nat
  uid : Option String
deriving DecidableEq, Repr

/-- `accountability?.admin` (null accountability is not admin). -/
def accAdmin : Option Acc → Bool
  | some a => a.admin
  | none => false

/-- The candidate `Subscription` object built by `onMessage` from the request
(fresh object identity `st.nextSid`). -/
def candidate (env : Env) (st : HandlerState) (c : Nat)
    (msg : SubscribeMessage) : Subscription :=
  { sid := st.nextSid
  , client := c
  , collection := msg.collection
  , item := msg.item
  , query := msg.query.map (fun q => env.sanitizeQuery q (getAcc st.clientAcc c))
  , uid := msg.uid }

/-- The `SUBSCRIBE` branch of `SubscribeHandler.onMessage`: validate the
collection, build the candidate, remove a same-uid subscription (or all of the
client's subscriptions when the request has no uid), run the `init` read, and
only on success register the candidate; the init frame is sent only in
collection mode (`if (!('item' in subscription))`). -/
def onSubscribe (env : Env) (st : HandlerState) (c : Nat)
    (msg : SubscribeMessage) : HandlerState × List Output :=
  let acc := getAcc st.clientAcc c
  match env.getSchema with
  | .error e => (st, [.error c (.svc e)])
  | .ok schema =>
    if !(accAdmin acc) && !(schema.collections.contains msg.collection) then
      (st, [.error c (.invalidCollection msg.uid)])
    else
      let sub := candidate env st c msg
      let st1 : HandlerState :=
        { st with subscriptions := unsubscribeReg st.subscriptions c sub.uid
                , nextSid := st.nextSid + 1 }
      match readPayload env sub acc schema "init" with
      | .error e => (st1, [.error c (.svc e)])
      | .ok res =>
        let st2 := { st1 with subscriptions := subscribeReg st1.subscriptions sub }
        if sub.item.isSome then (st2, [])
        else (st2, [.send c ⟨res.event, res.payload, res.meta, sub.uid⟩])

/-- A client protocol message relevant to the handler. -/
inductive ClientMsg
  | sub (c : Nat) (msg : SubscribeMessage)
  | unsub (c : Nat) (uid : Option String)
deriving DecidableEq, Repr

/-- One handler step on the registry state (`onMessage`). -/
def step (env : Env) (st : HandlerState) : ClientMsg → HandlerState
  | .sub c m => (onSubscribe env st c m).1
  | .unsub c u => { st with subscriptions := unsubscribeReg st.subscriptions c u }

def run (env : Env) (st : HandlerState) (msgs : List ClientMsg) : HandlerState :=
  msgs.foldl (step env) st

/-- Arguments carried by a `<module>.create/update/delete` action hook. -/
structure HookArgs where
  collection : String
  payload : Option Payload
  key : ItemKey
  keys : List ItemKey
deriving DecidableEq, Repr

/-- The event object built inside `bindModules`' `bindAction` before it is
published on the bus: the mutator extracts `key` (create) or `keys`
(update/delete), then `action`, `collection` and `payload ?? \x7b\x7d` are set. -/
def buildModuleEvent (act : WSAction) (args : HookArgs) : WebSocketEvent :=
  let base : WebSocketEvent :=
    match act with
    | .create => { action := act, collection := "", payload := []
                 , key := some args.key, keys := none }
    | .update => { action := act, collection := "", payload := []
                 , key := none, keys := some args.keys }
    | .delete => { action := act, collection := "", payload := []
                 , key := none, keys := some args.keys }
  { base with action := act
            , collection := args.collection
            , payload := args.payload.getD [] }

/-- All subscriptions stored in a registry, in iteration order. -/
def allSubsReg (reg : Registry) : List Subscription :=
  reg.flatMap Prod.snd

/-- Number of subscriptions of client `c` carrying uid `u` in the state. -/
def countUid (st : HandlerState) (c : Nat) (u : String) : Nat :=
  (allSubsReg st.subscriptions).countP (fun s => s.client == c && s.uid == some u)

/-- Record keys are distinct (true of a javascript record by construction). -/
def regKeysNodup (reg : Registry) : Prop := (reg.map Prod.fst).Nodup

/-- Every subscription is stored under its own collection key. -/
def regKeyed (reg : Registry) : Prop :=
  ∀ kl ∈ reg, ∀ s ∈ kl.2, s.collection = kl.1

/-- Object identity tags are pairwise distinct. -/
def sidsNodup (reg : Registry) : Prop :=
  (allSubsReg reg).Pairwise (fun a b => a.sid ≠ b.sid)

/-- All identity tags are below the counter. -/
def sidsBelow (reg : Registry) (n : Nat) : Prop :=
  ∀ s ∈ allSubsReg reg, s.sid < n

def WF (st : HandlerState) : Prop :=
  regKeysNodup st.subscriptions ∧ regKeyed st.subscriptions ∧
    sidsNodup st.subscriptions ∧ sidsBelow st.subscriptions st.nextSid

/-- Every subscription in the registry belongs to client `c`. -/
def ownedBy (reg : Registry) (c : Nat) : Prop :=
  ∀ s ∈ allSubsReg reg, s.client = c

/-- A concrete collaborator environment for witnesses: one collection `"c"`,
all reads succeed. -/
def env0 : Env :=
  { getSchema := .ok ⟨["c"]⟩
  , refreshAcc := fun a => .ok (a.getD ⟨false, 0⟩)
  , readOne := fun _ _ _ _ _ => .ok [("id", "42")]
  , readByQuery := fun _ _ _ _ => .ok []
  , getMeta := fun _ _ _ _ => []
  , sanitizeQuery := fun q _ => ⟨false, q⟩ }

/-- Like `env0` but the collection read fails. -/
def envFail : Env :=
  { env0 with readByQuery := fun _ _ _ _ => .error 7 }

/-- Like `env0` but the accountability refresh fails on a null accountability. -/
def envRefreshFail : Env :=
  { env0 with refreshAcc := fun a =>
      match a with
      | none => .error 3
      | some x => .ok x }

def st0 : HandlerState := ⟨[], [], 0⟩

def msgUidA : SubscribeMessage := ⟨"c", none, none, some "a"⟩

def msgItem : SubscribeMessage := ⟨"c", some 42, none, some "i"⟩

def msgNoUid : SubscribeMessage := ⟨"c", none, none, none⟩

/-- Connection 1's subscription with uid `"a"`, registered first. -/
def subA1 : Subscription := ⟨0, 1, "c", none, none, some "a"⟩

/-- Connection 2's subscription with the same uid `"a"`, registered second. -/
def subA2 : Subscription := ⟨1, 2, "c", none, none, some "a"⟩

/-- A single-item subscription of connection 1 on item 42. -/
def subItem : Subscription := ⟨0, 1, "c", some 42, none, some "i"⟩

def regAB : Registry := [("c", [subA1, subA2])]

def stAB : HandlerState := ⟨regAB, [], 2⟩

/-- State used for dispatch witnesses: two subscriptions, client 2 has an
accountability while client 1 has none. -/
def stDis : HandlerState := ⟨regAB, [(2, some ⟨false, 2⟩)], 2⟩

def stItem : HandlerState := ⟨[("c", [subItem])], [], 1⟩

/-- A two-subscription snapshot with stored accountabilities for both
clients. -/
def stC8 : HandlerState :=
  ⟨regAB, [(1, some ⟨true, 5⟩), (2, some ⟨false, 2⟩)], 2⟩

def evUpd : WebSocketEvent := ⟨.update, "c", [], none, some [42]⟩

/-- The predicate counted by `countUid`. -/
def uidP (c : Nat) (u : String) : Subscription → Bool :=
  fun s => s.client == c && s.uid == some u

/-- Invariant carried through a run in which only client `c` issues requests:
the registry is well formed, every stored subscription belongs to `c`, and `c`
holds at most one subscription per defined uid. -/
def Inv (c : Nat) (st : HandlerState) : Prop :=
  WF st ∧ ownedBy st.subscriptions c ∧
    ∀ u, (allSubsReg st.subscriptions).countP (uidP c u) ≤ 1

/-! ### Basic registry lemmas -/

theorem allSubsReg_cons (kl : String × List Subscription) (r : Registry) :
    allSubsReg (kl :: r) = kl.2 ++ allSubsReg r := rfl

theorem allSubsReg_append (r1 r2 : Registry) :
    allSubsReg (r1 ++ r2) = allSubsReg r1 ++ allSubsReg r2 := by
  simp [allSubsReg]

theorem mem_allSubsReg {t : Subscription} {reg : Registry} :
    t ∈ allSubsReg reg ↔ ∃ kl ∈ reg, t ∈ kl.2 := by
  simp [allSubsReg]

theorem regLookup_cons (kl : String × List Subscription) (r : Registry)
    (k : String) :
    regLookup (kl :: r) k = if kl.1 == k then some kl.2 else regLookup r k := by
  by_cases h : kl.1 == k <;> simp [regLookup, List.find?, h]

theorem regLookup_none_not_mem {reg : Registry} {k : String}
    (h : regLookup reg k = none) : k ∉ reg.map Prod.fst := by
  induction reg with
  | nil => simp
  | cons kl r ih =>
      rw [regLookup_cons] at h
      by_cases hk : kl.1 == k
      · simp [hk] at h
      · simp only [List.map_cons, List.mem_cons]
        rintro (rfl | hm)
        · simp at hk
        · exact ih (by simpa [hk] using h) hm

theorem regLookup_subset {reg : Registry} {k : String} {l : List Subscription}
    (h : regLookup reg k = some l) : ∀ t ∈ l, t ∈ allSubsReg reg := by
  induction reg with
  | nil => simp [regLookup] at h
  | cons kl r ih =>
      rw [regLookup_cons] at h
      by_cases hk : kl.1 == k
      · simp only [hk, if_pos] at h
        cases h
        intro t ht
        exact (mem_allSubsReg).2 ⟨kl, by simp, ht⟩
      · simp only [hk, Bool.false_eq_true, if_neg, not_false_eq_true] at h
        intro t ht
        rw [allSubsReg_cons, List.mem_append]
        exact Or.inr (ih h t ht)

theorem regSet_keys (reg : Registry) (k : String) (l : List Subscription) :
    (regSet reg k l).map Prod.fst = reg.map Prod.fst := by
  induction reg with
  | nil => rfl
  | cons kl r ih =>
      by_cases hk : kl.1 == k
      · have : kl.1 = k := by simpa using hk
        simp [regSet, hk, this, ih, regSet] at *
        simpa [regSet] using ih
      · simp only [regSet, List.map_cons, hk, Bool.false_eq_true, if_neg,
          not_false_eq_true, List.map_map] at *
        simpa [regSet] using ih

theorem regSet_eq_of_not_mem {reg : Registry} {k : String}
    (l : List Subscription) (h : k ∉ reg.map Prod.fst) : regSet reg k l = reg := by
  induction reg with
  | nil => rfl
  | cons kl r ih =>
      simp only [List.map_cons, List.mem_cons, not_or] at h
      have hk : (kl.1 == k) = false := by
        simp only [beq_eq_false_iff_ne, ne_eq]
        exact fun hkk => h.1 hkk.symm
      simp only [regSet, List.map_cons, hk, Bool.false_eq_true, if_neg,
        not_false_eq_true, List.cons.injEq, true_and]
      simpa [regSet] using ih h.2

theorem getSubscription_cons (kl : String × List Subscription) (r : Registry)
    (u : String) :
    getSubscription (kl :: r) u =
      match kl.2.find? (fun s => s.uid == some u) with
      | some s => some s
      | none => getSubscription r u := by
  cases hf : kl.2.find? (fun s => s.uid == some u) <;>
    simp [getSubscription, List.findSome?, hf]

theorem getSubscription_some {reg : Registry} {u : String} {s : Subscription}
    (h : getSubscription reg u = some s) :
    s ∈ allSubsReg reg ∧ s.uid = some u := by
  induction reg with
  | nil => simp [getSubscription] at h
  | cons kl r ih =>
      rw [getSubscription_cons] at h
      rcases hf : kl.2.find? (fun s => s.uid == some u) with _ | t
      · rw [hf] at h
        rcases ih h with ⟨hm, hu⟩
        exact ⟨by rw [allSubsReg_cons]; exact List.mem_append_right _ hm, hu⟩
      · rw [hf] at h
        cases h
        refine ⟨by
          rw [allSubsReg_cons]
          exact List.mem_append_left _ (List.mem_of_find?_eq_some hf), ?_⟩
        have := List.find?_some hf
        simpa using this

theorem getSubscription_none {reg : Registry} {u : String}
    (h : getSubscription reg u = none) :
    ∀ s ∈ allSubsReg reg, s.uid ≠ some u := by
  induction reg with
  | nil => simp [allSubsReg]
  | cons kl r ih =>
      rw [getSubscription_cons] at h
      rcases hf : kl.2.find? (fun s => s.uid == some u) with _ | t
      · rw [hf] at h
        intro s hs
        rw [allSubsReg_cons, List.mem_append] at hs
        rcases hs with hs | hs
        · have := List.find?_eq_none.1 hf s hs
          simpa using this
        · exact ih h s hs
      · rw [hf] at h
        cases h

/-! ### Filter, sublist and permutation lemmas about the registry operations -/

theorem removeAllFor_allSubs (reg : Registry) (c : Nat) :
    allSubsReg (removeAllFor reg c)
      = (allSubsReg reg).filter (fun t => !(t.client == c)) := by
  induction reg with
  | nil => rfl
  | cons kl r ih =>
      simp only [removeAllFor, List.map_cons, allSubsReg_cons,
        List.filter_append]
      rw [← ih]
      rfl

theorem removeAllFor_sublist (reg : Registry) (c : Nat) :
    List.Sublist (allSubsReg (removeAllFor reg c)) (allSubsReg reg) := by
  rw [removeAllFor_allSubs]
  exact List.filter_sublist _

theorem regDelete_sublist (reg : Registry) (s : Subscription) :
    List.Sublist (allSubsReg (regDelete reg s)) (allSubsReg reg) := by
  induction reg with
  | nil => exact List.Sublist.refl _
  | cons kl r ih =>
      simp only [regDelete, List.map_cons, allSubsReg_cons]
      refine List.Sublist.append ?_ (by simpa [regDelete] using ih)
      by_cases hk : kl.1 == s.collection
      · simp only [hk, if_pos]
        exact List.filter_sublist _
      · simp only [hk, Bool.false_eq_true, if_neg, not_false_eq_true]
        exact List.Sublist.refl _

theorem unsubscribeReg_sublist (reg : Registry) (c : Nat) (u : Option String) :
    List.Sublist (allSubsReg (unsubscribeReg reg c u)) (allSubsReg reg) := by
  cases u with
  | none => exact removeAllFor_sublist reg c
  | some u =>
      simp only [unsubscribeReg]
      cases hg : getSubscription reg u with
      | none => exact List.Sublist.refl _
      | some s =>
          by_cases hc : s.client == c
          · simp only [hc, if_pos]
            exact regDelete_sublist reg s
          · simp only [hc, Bool.false_eq_true, if_neg, not_false_eq_true]
            exact List.Sublist.refl _

theorem perm_filter_sid {l : List Subscription} {s : Subscription}
    (hnd : l.Pairwise (fun a b => a.sid ≠ b.sid)) (hm : s ∈ l) :
    l.Perm (s :: l.filter (fun t => !(t.sid == s.sid))) := by
  induction l with
  | nil => cases hm
  | cons a l ih =>
      rcases List.mem_cons.1 hm with rfl | hm'
      · have hall : ∀ t ∈ l, (!(t.sid == s.sid)) = true := by
          intro t ht
          have := (List.pairwise_cons.1 hnd).1 t ht
          simpa using this.symm
        rw [List.filter_cons]
        simp only [beq_self_eq_true, Bool.not_true, Bool.false_eq_true,
          if_neg, not_false_eq_true]
        rw [List.filter_eq_self.2 hall]
      · have ha : (!(a.sid == s.sid)) = true := by
          have := (List.pairwise_cons.1 hnd).1 s hm'
          simpa using this
        rw [List.filter_cons]
        simp only [ha, if_pos]
        have ihp := ih (List.pairwise_cons.1 hnd).2 hm'
        exact (ihp.cons a).trans (List.Perm.swap s a _)

theorem regDelete_eq_of_no_key {reg : Registry} {s : Subscription}
    (h : ∀ kl ∈ reg, kl.1 ≠ s.collection) : regDelete reg s = reg := by
  induction reg with
  | nil => rfl
  | cons kl r ih =>
      have hk : (kl.1 == s.collection) = false := by
        simpa using h kl (by simp)
      simp only [regDelete, List.map_cons, hk, Bool.false_eq_true, if_neg,
        not_false_eq_true, List.cons.injEq, true_and]
      simpa [regDelete] using ih (fun kl' h' => h kl' (List.mem_cons_of_mem _ h'))

theorem regKeysNodup_tail {kl : String × List Subscription} {r : Registry}
    (h : regKeysNodup (kl :: r)) : regKeysNodup r :=
  (List.nodup_cons.1 h).2

theorem regKeyed_tail {kl : String × List Subscription} {r : Registry}
    (h : regKeyed (kl :: r)) : regKeyed r :=
  fun kl' h' => h kl' (List.mem_cons_of_mem _ h')

theorem sidsNodup_tail {kl : String × List Subscription} {r : Registry}
    (h : sidsNodup (kl :: r)) : sidsNodup r := by
  unfold sidsNodup at *
  rw [allSubsReg_cons] at h
  exact h.sublist (List.sublist_append_right _ _)

theorem regDelete_perm {reg : Registry} {s : Subscription}
    (hknd : regKeysNodup reg) (hkey : regKeyed reg) (hsid : sidsNodup reg)
    (hm : s ∈ allSubsReg reg) :
    (allSubsReg reg).Perm (s :: allSubsReg (regDelete reg s)) := by
  induction reg with
  | nil => cases hm
  | cons kl r ih =>
      rw [allSubsReg_cons] at hm
      rcases List.mem_append.1 hm with hm1 | hm2
      · have hcol : s.collection = kl.1 := hkey kl (by simp) s hm1
        have hk : (kl.1 == s.collection) = true := by simp [hcol]
        have htail : regDelete r s = r := by
          refine regDelete_eq_of_no_key ?_
          intro kl' hkl' heq
          have hnotin : kl.1 ∉ r.map Prod.fst := (List.nodup_cons.1 hknd).1
          exact hnotin (by
            rw [hcol] at heq
            exact heq ▸ List.mem_map_of_mem Prod.fst hkl')
        simp only [regDelete, List.map_cons, hk, if_pos, allSubsReg_cons]
        have hrr : (r.map (fun kl =>
            if kl.1 == s.collection then
              (kl.1, kl.2.filter (fun t => !(t.sid == s.sid)))
            else kl)) = r := htail
        rw [hrr]
        have hp : kl.2.Perm (s :: kl.2.filter (fun t => !(t.sid == s.sid))) := by
          refine perm_filter_sid ?_ hm1
          have := hsid
          unfold sidsNodup at this
          rw [allSubsReg_cons] at this
          exact this.sublist (List.sublist_append_left _ _)
        exact hp.append_right _
      · obtain ⟨kl', hkl', hs'⟩ := mem_allSubsReg.1 hm2
        have hcol : s.collection = kl'.1 :=
          hkey kl' (List.mem_cons_of_mem _ hkl') s hs'
        have hk : (kl.1 == s.collection) = false := by
          simp only [beq_eq_false_iff_ne, ne_eq]
          intro heq
          have hnotin : kl.1 ∉ r.map Prod.fst := (List.nodup_cons.1 hknd).1
          exact hnotin (by
            rw [heq, hcol]
            exact List.mem_map_of_mem Prod.fst hkl')
        simp only [regDelete, List.map_cons, hk, Bool.false_eq_true, if_neg,
          not_false_eq_true, allSubsReg_cons]
        have ihp := ih (regKeysNodup_tail hknd) (regKeyed_tail hkey)
          (sidsNodup_tail hsid) hm2
        have h1 : (kl.2 ++ allSubsReg r).Perm
            (kl.2 ++ (s :: allSubsReg (regDelete r s))) :=
          List.Perm.append_left _ ihp
        refine h1.trans ?_
        have h2 : (kl.2 ++ s :: allSubsReg (regDelete r s)).Perm
            (s :: (kl.2 ++ allSubsReg (regDelete r s))) := List.perm_middle
        exact (by simp only [regDelete] at h2 ⊢; exact h2)

/-! ### Lemmas about `subscribeReg` -/

theorem subscribeReg_perm {reg : Registry} {s : Subscription}
    (hknd : regKeysNodup reg)
    (hfresh : ∀ t ∈ allSubsReg reg, t.sid ≠ s.sid) :
    (allSubsReg (subscribeReg reg s)).Perm (s :: allSubsReg reg) := by
  induction reg with
  | nil => simp [subscribeReg, regLookup, allSubsReg, List.find?]
  | cons kl r ih =>
      by_cases hk : kl.1 == s.collection
      · have hl : regLookup (kl :: r) s.collection = some kl.2 := by
          rw [regLookup_cons, if_pos hk]
        have hkeq : kl.1 = s.collection := by simpa using hk
        have hnotin : s.collection ∉ r.map Prod.fst := by
          have := (List.nodup_cons.1 hknd).1
          rwa [hkeq] at this
        have hadd : setAdd kl.2 s = kl.2 ++ [s] := by
          unfold setAdd
          rw [if_neg]
          simp only [List.any_eq_true, not_exists, not_and, Bool.not_eq_true]
          intro t ht
          simp only [beq_eq_false_iff_ne, ne_eq]
          exact hfresh t (by rw [allSubsReg_cons]; exact List.mem_append_left _ ht)
        simp only [subscribeReg, hl]
        simp only [regSet, List.map_cons, hk, if_pos]
        rw [show (r.map (fun kl' =>
            if kl'.1 == s.collection then (s.collection, setAdd kl.2 s)
            else kl')) = r from regSet_eq_of_not_mem _ hnotin]
        rw [allSubsReg_cons, allSubsReg_cons]
        simp only [hadd]
        rw [List.append_assoc]
        exact List.perm_middle
      · have hl : regLookup (kl :: r) s.collection = regLookup r s.collection := by
          rw [regLookup_cons, if_neg (by simp_all)]
        cases hlr : regLookup r s.collection with
        | none =>
            simp only [subscribeReg, hl, hlr]
            rw [show ((kl :: r) ++ [(s.collection, [s])] : Registry)
                = kl :: (r ++ [(s.collection, [s])]) from rfl]
            rw [allSubsReg_cons, allSubsReg_cons, allSubsReg_append]
            have : (allSubsReg r ++ allSubsReg [(s.collection, [s])])
                = allSubsReg r ++ [s] := rfl
            rw [this, ← List.append_assoc]
            exact List.perm_append_singleton s _
        | some l =>
            have hfresh' : ∀ t ∈ allSubsReg r, t.sid ≠ s.sid := fun t ht =>
              hfresh t (by rw [allSubsReg_cons]; exact List.mem_append_right _ ht)
            have ihp := ih (regKeysNodup_tail hknd) hfresh'
            simp only [subscribeReg, hl, hlr] at ihp ⊢
            simp only [regSet, List.map_cons, hk, Bool.false_eq_true, if_neg,
              not_false_eq_true]
            rw [allSubsReg_cons, allSubsReg_cons]
            refine ((List.Perm.append_left kl.2 ihp).trans ?_)
            exact List.perm_middle

theorem regSet_allSubs_mem {reg : Registry} {k : String}
    {l : List Subscription} {t : Subscription}
    (h : t ∈ allSubsReg (regSet reg k l)) : t ∈ l ∨ t ∈ allSubsReg reg := by
  induction reg with
  | nil => cases h
  | cons kl r ih =>
      simp only [regSet, List.map_cons, allSubsReg_cons] at h
      rcases List.mem_append.1 h with h1 | h2
      · by_cases hk : kl.1 == k
        · simp only [hk, if_pos] at h1
          exact Or.inl h1
        · simp only [hk, Bool.false_eq_true, if_neg, not_false_eq_true] at h1
          exact Or.inr (by rw [allSubsReg_cons]; exact List.mem_append_left _ h1)
      · rcases ih (by simpa [regSet] using h2) with h3 | h3
        · exact Or.inl h3
        · exact Or.inr (by rw [allSubsReg_cons]; exact List.mem_append_right _ h3)

theorem setAdd_mem {l : List Subscription} {s t : Subscription}
    (h : t ∈ setAdd l s) : t ∈ l ∨ t = s := by
  unfold setAdd at h
  by_cases ha : l.any (fun u => u.sid == s.sid)
  · rw [if_pos ha] at h
    exact Or.inl h
  · rw [if_neg ha] at h
    rcases List.mem_append.1 h with h1 | h1
    · exact Or.inl h1
    · exact Or.inr (by simpa using h1)

theorem mem_allSubs_subscribeReg {reg : Registry} {s t : Subscription}
    (h : t ∈ allSubsReg (subscribeReg reg s)) : t ∈ allSubsReg reg ∨ t = s := by
  cases hl : regLookup reg s.collection with
  | none =>
      simp only [subscribeReg, hl] at h
      rw [allSubsReg_append] at h
      rcases List.mem_append.1 h with h1 | h1
      · exact Or.inl h1
      · exact Or.inr (by simpa [allSubsReg] using h1)
  | some l =>
      simp only [subscribeReg, hl] at h
      rcases regSet_allSubs_mem h with h1 | h1
      · rcases setAdd_mem h1 with h2 | h2
        · exact Or.inl (regLookup_subset hl t h2)
        · exact Or.inr h2
      · exact Or.inl h1

/-! ### Preservation of the registry well-formedness invariants -/

theorem removeAllFor_keys (reg : Registry) (c : Nat) :
    (removeAllFor reg c).map Prod.fst = reg.map Prod.fst := by
  unfold removeAllFor
  rw [List.map_map]
  exact List.map_congr_left (fun kl _ => rfl)

theorem regDelete_keys (reg : Registry) (s : Subscription) :
    (regDelete reg s).map Prod.fst = reg.map Prod.fst := by
  unfold regDelete
  rw [List.map_map]
  refine List.map_congr_left ?_
  intro kl _
  simp only [Function.comp]
  split <;> rfl

theorem unsubscribeReg_keys (reg : Registry) (c : Nat) (u : Option String) :
    (unsubscribeReg reg c u).map Prod.fst = reg.map Prod.fst := by
  cases u with
  | none => exact removeAllFor_keys reg c
  | some u =>
      simp only [unsubscribeReg]
      cases getSubscription reg u with
      | none => rfl
      | some s =>
          by_cases hc : s.client == c
          · simp [hc, regDelete_keys]
          · simp [hc]

theorem regKeysNodup_unsubscribeReg {reg : Registry} (c : Nat)
    (u : Option String) (h : regKeysNodup reg) :
    regKeysNodup (unsubscribeReg reg c u) := by
  unfold regKeysNodup at *
  rwa [unsubscribeReg_keys]

theorem regKeysNodup_subscribeReg {reg : Registry} {s : Subscription}
    (h : regKeysNodup reg) : regKeysNodup (subscribeReg reg s) := by
  cases hl : regLookup reg s.collection with
  | none =>
      unfold regKeysNodup at *
      simp only [subscribeReg, hl, List.map_append]
      rw [List.nodup_append]
      refine ⟨h, List.nodup_singleton _, ?_⟩
      intro k hk hk'
      simp only [List.map_cons, List.map_nil, List.mem_singleton] at hk'
      subst hk'
      exact regLookup_none_not_mem hl hk
  | some l =>
      unfold regKeysNodup at *
      simp only [subscribeReg, hl]
      rwa [regSet_keys]

theorem regLookup_entry {reg : Registry} {k : String} {l : List Subscription}
    (h : regLookup reg k = some l) : ∃ kl ∈ reg, kl.1 = k ∧ kl.2 = l := by
  unfold regLookup at h
  cases hf : reg.find? (fun kl => kl.1 == k) with
  | none => rw [hf] at h; cases h
  | some kl =>
      rw [hf] at h
      cases h
      refine ⟨kl, List.mem_of_find?_eq_some hf, ?_, rfl⟩
      have := List.find?_some hf
      simpa using this

theorem regKeyed_removeAllFor {reg : Registry} (c : Nat) (h : regKeyed reg) :
    regKeyed (removeAllFor reg c) := by
  intro kl' hkl' s hs
  obtain ⟨kl, hkl, rfl⟩ := List.mem_map.1 hkl'
  exact h kl hkl s (List.mem_of_mem_filter hs)

theorem regKeyed_regDelete {reg : Registry} (s0 : Subscription)
    (h : regKeyed reg) : regKeyed (regDelete reg s0) := by
  intro kl' hkl' s hs
  obtain ⟨kl, hkl, rfl⟩ := List.mem_map.1 hkl'
  by_cases hk : kl.1 == s0.collection
  · simp only [hk, if_pos] at hs ⊢
    exact h kl hkl s (List.mem_of_mem_filter hs)
  · simp only [hk, Bool.false_eq_true, if_neg, not_false_eq_true] at hs ⊢
    exact h kl hkl s hs

theorem regKeyed_unsubscribeReg {reg : Registry} (c : Nat) (u : Option String)
    (h : regKeyed reg) : regKeyed (unsubscribeReg reg c u) := by
  cases u with
  | none => exact regKeyed_removeAllFor c h
  | some u =>
      simp only [unsubscribeReg]
      cases getSubscription reg u with
      | none => exact h
      | some s =>
          by_cases hc : s.client == c
          · simp only [hc, if_pos]
            exact regKeyed_regDelete s h
          · simp only [hc, Bool.false_eq_true, if_neg, not_false_eq_true]
            exact h

theorem regKeyed_subscribeReg {reg : Registry} {s : Subscription}
    (h : regKeyed reg) : regKeyed (subscribeReg reg s) := by
  cases hl : regLookup reg s.collection with
  | none =>
      simp only [subscribeReg, hl]
      intro kl hkl t ht
      rcases List.mem_append.1 hkl with h1 | h1
      · exact h kl h1 t ht
      · simp only [List.mem_singleton] at h1
        subst h1
        simp only [List.mem_singleton] at ht
        subst ht
        rfl
  | some l =>
      simp only [subscribeReg, hl]
      intro kl' hkl' t ht
      obtain ⟨kl, hkl, rfl⟩ := List.mem_map.1 hkl'
      by_cases hk : kl.1 == s.collection
      · simp only [hk, if_pos] at ht ⊢
        rcases setAdd_mem ht with h1 | h1
        · obtain ⟨kl0, hkl0, hk0, hl0⟩ := regLookup_entry hl
          exact (h kl0 hkl0 t (by rw [hl0]; exact h1)).trans hk0
        · subst h1
          rfl
      · simp only [hk, Bool.false_eq_true, if_neg, not_false_eq_true] at ht ⊢
        exact h kl hkl t ht

theorem sidsNodup_unsubscribeReg {reg : Registry} (c : Nat) (u : Option String)
    (h : sidsNodup reg) : sidsNodup (unsubscribeReg reg c u) :=
  h.sublist (unsubscribeReg_sublist reg c u)

theorem sidsBelow_unsubscribeReg {reg : Registry} {n : Nat} (c : Nat)
    (u : Option String) (h : sidsBelow reg n) :
    sidsBelow (unsubscribeReg reg c u) n :=
  fun s hs => h s ((unsubscribeReg_sublist reg c u).subset hs)

theorem sidsNodup_subscribeReg {reg : Registry} {s : Subscription}
    (hknd : regKeysNodup reg)
    (hfresh : ∀ t ∈ allSubsReg reg, t.sid ≠ s.sid)
    (h : sidsNodup reg) : sidsNodup (subscribeReg reg s) := by
  have hperm := subscribeReg_perm hknd hfresh
  unfold sidsNodup at *
  rw [hperm.pairwise_iff (fun hab hba => hab hba.symm)]
  rw [List.pairwise_cons]
  exact ⟨fun t ht hst => hfresh t ht hst.symm, h⟩

theorem sidsBelow_subscribeReg {reg : Registry} {s : Subscription} {n : Nat}
    (hb : sidsBelow reg n) (hs : s.sid < n) :
    sidsBelow (subscribeReg reg s) n := by
  intro t ht
  rcases mem_allSubs_subscribeReg ht with h1 | h1
  · exact hb t h1
  · subst h1
    exact hs

theorem sidsBelow_mono {reg : Registry} {n m : Nat} (h : sidsBelow reg n)
    (hnm : n ≤ m) : sidsBelow reg m :=
  fun s hs => lt_of_lt_of_le (h s hs) hnm

/-! ### Counting subscriptions by client and uid -/

theorem countUid_eq (st : HandlerState) (c : Nat) (u : String) :
    countUid st c u = (allSubsReg st.subscriptions).countP (uidP c u) := rfl

theorem countP_removeAllFor_self (reg : Registry) (c : Nat) (u : String) :
    (allSubsReg (removeAllFor reg c)).countP (uidP c u) = 0 := by
  rw [removeAllFor_allSubs]
  rw [List.countP_eq_zero]
  intro s hs
  have := (List.mem_filter.1 hs).2
  simp only [uidP, Bool.and_eq_true, beq_iff_eq]
  rintro ⟨h1, h2⟩
  simp [h1] at this

theorem countP_subscribeReg {reg : Registry} {s : Subscription}
    (hknd : regKeysNodup reg)
    (hfresh : ∀ t ∈ allSubsReg reg, t.sid ≠ s.sid) (p : Subscription → Bool) :
    (allSubsReg (subscribeReg reg s)).countP p
      = (allSubsReg reg).countP p + (if p s then 1 else 0) := by
  rw [(subscribeReg_perm hknd hfresh).countP_eq]
  exact List.countP_cons p s _

theorem countP_regDelete {reg : Registry} {s : Subscription}
    (hknd : regKeysNodup reg) (hkey : regKeyed reg) (hsid : sidsNodup reg)
    (hm : s ∈ allSubsReg reg) (p : Subscription → Bool) :
    (allSubsReg reg).countP p
      = (allSubsReg (regDelete reg s)).countP p + (if p s then 1 else 0) := by
  rw [(regDelete_perm hknd hkey hsid hm).countP_eq]
  exact List.countP_cons p s _

/-! ### State characterization of `onSubscribe` -/

theorem onSubscribe_state (env : Env) (st : HandlerState) (c : Nat)
    (msg : SubscribeMessage) :
    (onSubscribe env st c msg).1 =
      match env.getSchema with
      | .error _ => st
      | .ok schema =>
        if !(accAdmin (getAcc st.clientAcc c))
            && !(schema.collections.contains msg.collection) then st
        else
          match readPayload env (candidate env st c msg)
              (getAcc st.clientAcc c) schema "init" with
          | .error _ =>
              { st with
                  subscriptions := unsubscribeReg st.subscriptions c msg.uid
                , nextSid := st.nextSid + 1 }
          | .ok _ =>
              { st with
                  subscriptions :=
                    subscribeReg (unsubscribeReg st.subscriptions c msg.uid)
                      (candidate env st c msg)
                , nextSid := st.nextSid + 1 } := by
  unfold onSubscribe
  cases hs : env.getSchema with
  | error e => rfl
  | ok schema =>
      by_cases hv : (!(accAdmin (getAcc st.clientAcc c))
          && !(schema.collections.contains msg.collection)) = true
      · have hv' : accAdmin (getAcc st.clientAcc c) = false
            ∧ msg.collection ∉ schema.collections := by
          simp only [Bool.and_eq_true, Bool.not_eq_true'] at hv
          refine ⟨hv.1, ?_⟩
          simpa using hv.2
        simp [hv'.1, hv'.2]
      · simp only [Bool.not_eq_true] at hv
        simp only [hv, Bool.false_eq_true, if_neg, not_false_eq_true]
        cases hr : readPayload env (candidate env st c msg)
            (getAcc st.clientAcc c) schema "init" with
        | error e => rfl
        | ok res =>
            by_cases hi : (candidate env st c msg).item.isSome = true
            · simp only [hi]
              rfl
            · simp only [Bool.not_eq_true] at hi
              simp only [hi]
              rfl

/-! ### The single-connection uid-uniqueness invariant -/

theorem inv_onSubscribe {env : Env} {st : HandlerState} {c : Nat}
    (msg : SubscribeMessage) (h : Inv c st) :
    Inv c (onSubscribe env st c msg).1 := by
  obtain ⟨⟨hknd, hkey, hsid, hbel⟩, hown, hcnt⟩ := h
  rw [onSubscribe_state]
  cases hs : env.getSchema with
  | error e => exact ⟨⟨hknd, hkey, hsid, hbel⟩, hown, hcnt⟩
  | ok schema =>
      by_cases hv : (!(accAdmin (getAcc st.clientAcc c))
          && !(schema.collections.contains msg.collection)) = true
      · simp only [hv, if_pos]
        exact ⟨⟨hknd, hkey, hsid, hbel⟩, hown, hcnt⟩
      · simp only [Bool.not_eq_true] at hv
        simp only [hv]
        rw [if_neg (show ¬(false = true) by simp)]
        have hknd1 := regKeysNodup_unsubscribeReg c msg.uid hknd
        have hkey1 := regKeyed_unsubscribeReg c msg.uid hkey
        have hsid1 := sidsNodup_unsubscribeReg c msg.uid hsid
        have hbel1 := sidsBelow_unsubscribeReg c msg.uid hbel
        have hown1 : ownedBy (unsubscribeReg st.subscriptions c msg.uid) c :=
          fun s hsm =>
            hown s ((unsubscribeReg_sublist st.subscriptions c msg.uid).subset hsm)
        have hfresh1 : ∀ t ∈ allSubsReg (unsubscribeReg st.subscriptions c msg.uid),
            t.sid ≠ (candidate env st c msg).sid := by
          intro t ht
          have := hbel1 t ht
          simp only [candidate]
          omega
        cases hr : readPayload env (candidate env st c msg)
            (getAcc st.clientAcc c) schema "init" with
        | error e =>
            refine ⟨⟨hknd1, hkey1, hsid1,
              sidsBelow_mono hbel1 (Nat.le_succ _)⟩, hown1, ?_⟩
            intro u
            exact le_trans
              ((unsubscribeReg_sublist st.subscriptions c msg.uid).countP_le _)
              (hcnt u)
        | ok res =>
            refine ⟨⟨regKeysNodup_subscribeReg hknd1,
              regKeyed_subscribeReg hkey1,
              sidsNodup_subscribeReg hknd1 hfresh1 hsid1,
              sidsBelow_subscribeReg
                (sidsBelow_mono hbel1 (Nat.le_succ _))
                (by simp [candidate])⟩, ?_, ?_⟩
            · intro t ht
              rcases mem_allSubs_subscribeReg ht with h1 | h1
              · exact hown1 t h1
              · subst h1
                rfl
            · intro u
              show (allSubsReg (subscribeReg
                  (unsubscribeReg st.subscriptions c msg.uid)
                  (candidate env st c msg))).countP (uidP c u) ≤ 1
              rw [countP_subscribeReg hknd1 hfresh1]
              cases hu0 : msg.uid with
              | none =>
                  have hp : uidP c u (candidate env st c msg) = false := by
                    simp [uidP, candidate, hu0]
                  simp only [hp, Bool.false_eq_true, if_neg, not_false_eq_true,
                    add_zero]
                  rw [show unsubscribeReg st.subscriptions c none
                      = removeAllFor st.subscriptions c from rfl]
                  rw [countP_removeAllFor_self]
                  omega
              | some u0 =>
                  by_cases hu : u = u0
                  · subst hu
                    have hp : uidP c u (candidate env st c msg) = true := by
                      simp [uidP, candidate, hu0]
                    simp only [hp, if_pos]
                    have hz : (allSubsReg (unsubscribeReg st.subscriptions c
                        (some u))).countP (uidP c u) = 0 := by
                      simp only [unsubscribeReg]
                      cases hg : getSubscription st.subscriptions u with
                      | none =>
                          rw [List.countP_eq_zero]
                          intro s hsm hps
                          have hne := getSubscription_none hg s hsm
                          simp only [uidP, Bool.and_eq_true, beq_iff_eq] at hps
                          exact hne hps.2
                      | some s =>
                          obtain ⟨hsm, hsu⟩ := getSubscription_some hg
                          have hsc : s.client = c := hown s hsm
                          have hcb : (s.client == c) = true := by simp [hsc]
                          simp only [hcb, if_pos]
                          have heq := countP_regDelete hknd hkey hsid hsm
                            (uidP c u)
                          have hps : uidP c u s = true := by
                            simp [uidP, hsc, hsu]
                          rw [hps] at heq
                          simp only [if_true] at heq
                          have := hcnt u
                          omega
                    omega
                  · have hp : uidP c u (candidate env st c msg) = false := by
                      simp only [uidP, candidate, hu0, beq_self_eq_true,
                        Bool.true_and]
                      simp only [beq_eq_false_iff_ne, ne_eq, Option.some.injEq]
                      exact fun hh => hu hh.symm
                    simp only [hp, Bool.false_eq_true, if_neg, not_false_eq_true,
                      add_zero]
                    exact le_trans
                      ((unsubscribeReg_sublist st.subscriptions c
                        (some u0)).countP_le _)
                      (hcnt u)

theorem inv_run {env : Env} {c : Nat} {st : HandlerState}
    (h : Inv c st) (msgs : List ClientMsg)
    (hc : ∀ x ∈ msgs, ∃ m, x = ClientMsg.sub c m) : Inv c (run env st msgs) := by
  induction msgs generalizing st with
  | nil => exact h
  | cons x rest ih =>
      obtain ⟨m, rfl⟩ := hc x (by simp)
      exact ih (inv_onSubscribe m h) (fun y hy => hc y (List.mem_cons_of_mem _ hy))

theorem inv_empty (c : Nat) (ca : List (Nat × Option Acc)) :
    Inv c ⟨[], ca, 0⟩ := by
  refine ⟨⟨?_, ?_, ?_, ?_⟩, ?_, ?_⟩ <;> simp [regKeysNodup, regKeyed,
    sidsNodup, sidsBelow, allSubsReg, ownedBy]

/-! ### Full characterization of `onSubscribe` -/

theorem onSubscribe_eq (env : Env) (st : HandlerState) (c : Nat)
    (msg : SubscribeMessage) :
    onSubscribe env st c msg =
      match env.getSchema with
      | .error e => (st, [.error c (.svc e)])
      | .ok schema =>
        if !(accAdmin (getAcc st.clientAcc c))
            && !(schema.collections.contains msg.collection) then
          (st, [.error c (.invalidCollection msg.uid)])
        else
          match readPayload env (candidate env st c msg)
              (getAcc st.clientAcc c) schema "init" with
          | .error e =>
              ({ st with
                  subscriptions := unsubscribeReg st.subscriptions c
                    (candidate env st c msg).uid
                , nextSid := st.nextSid + 1 }, [.error c (.svc e)])
          | .ok res =>
              if (candidate env st c msg).item.isSome then
                ({ st with
                    subscriptions :=
                      subscribeReg (unsubscribeReg st.subscriptions c
                          (candidate env st c msg).uid)
                        (candidate env st c msg)
                  , nextSid := st.nextSid + 1 }, [])
              else
                ({ st with
                    subscriptions :=
                      subscribeReg (unsubscribeReg st.subscriptions c
                          (candidate env st c msg).uid)
                        (candidate env st c msg)
                  , nextSid := st.nextSid + 1 },
                  [.send c ⟨res.event, res.payload, res.meta,
                    (candidate env st c msg).uid⟩]) := by
  unfold onSubscribe
  cases hs : env.getSchema with
  | error e => rfl
  | ok schema =>
      by_cases hv : (!(accAdmin (getAcc st.clientAcc c))
          && !(schema.collections.contains msg.collection)) = true
      · have hv' : accAdmin (getAcc st.clientAcc c) = false
            ∧ msg.collection ∉ schema.collections := by
          simp only [Bool.and_eq_true, Bool.not_eq_true'] at hv
          refine ⟨hv.1, ?_⟩
          simpa using hv.2
        simp [hv'.1, hv'.2]
      · simp only [Bool.not_eq_true] at hv
        simp only [hv]

theorem candidate_uid (env : Env) (st : HandlerState) (c : Nat)
    (msg : SubscribeMessage) : (candidate env st c msg).uid = msg.uid := rfl

theorem candidate_item (env : Env) (st : HandlerState) (c : Nat)
    (msg : SubscribeMessage) : (candidate env st c msg).item = msg.item := rfl

theorem candidate_client (env : Env) (st : HandlerState) (c : Nat)
    (msg : SubscribeMessage) : (candidate env st c msg).client = c := rfl

theorem candidate_sid (env : Env) (st : HandlerState) (c : Nat)
    (msg : SubscribeMessage) : (candidate env st c msg).sid = st.nextSid := rfl

/-! ### Dispatch lemmas -/

theorem procSub_target (env : Env) (ev : WebSocketEvent)
    (m : List (Nat × Option Acc)) (sub : Subscription) :
    ((procSub env ev m sub).2).target = sub.client := by
  cases h1 : env.refreshAcc (getAcc m sub.client) with
  | error e => simp [procSub, h1, Output.target]
  | ok a =>
      cases h2 : env.getSchema with
      | error e => simp [procSub, h1, h2, Output.target]
      | ok schema =>
          cases h3 : readPayload env sub (some a) schema
              (actionName ev.action) with
          | error e => simp [procSub, h1, h2, h3, Output.target]
          | ok res => simp [procSub, h1, h2, h3, Output.target]

theorem procSub_ok_eq (env : Env) (ev : WebSocketEvent)
    (m : List (Nat × Option Acc)) (sub : Subscription) (a : Acc) (sch : Schema)
    (res : SubResult)
    (hracc : env.refreshAcc (getAcc m sub.client) = .ok a)
    (hsch : env.getSchema = .ok sch)
    (hread : readPayload env sub (some a) sch (actionName ev.action)
        = .ok res) :
    procSub env ev m sub
      = (setAcc m sub.client (some a),
          .send sub.client ⟨res.event, res.payload, res.meta, sub.uid⟩) := by
  simp [procSub, hracc, hsch, hread]

theorem dispatchLoop_length (env : Env) (ev : WebSocketEvent)
    (m : List (Nat × Option Acc)) (l : List Subscription) :
    ((dispatchLoop env ev m l).2).length = l.length := by
  induction l generalizing m with
  | nil => rfl
  | cons s rest ih => simp [dispatchLoop, ih]

theorem dispatchLoop_getQ (env : Env) (ev : WebSocketEvent)
    (m : List (Nat × Option Acc)) (l : List Subscription) (i : Nat) :
    ((dispatchLoop env ev m l).2)[i]? = (l[i]?).map
      (fun s => (procSub env ev (dispatchLoop env ev m (l.take i)).1 s).2) := by
  induction l generalizing m i with
  | nil => simp [dispatchLoop]
  | cons s rest ih =>
      cases i with
      | zero => simp [dispatchLoop]
      | succ j =>
          simp only [dispatchLoop, List.getElem?_cons_succ, List.take_succ_cons]
          exact ih _ j

theorem dispatchLoop_mem_target (env : Env) (ev : WebSocketEvent) :
    ∀ {m : List (Nat × Option Acc)} {l : List Subscription} {o : Output},
      o ∈ (dispatchLoop env ev m l).2 → ∃ s ∈ l, o.target = s.client := by
  intro m l
  induction l generalizing m with
  | nil => intro o h; cases h
  | cons s rest ih =>
      intro o h
      simp only [dispatchLoop, List.mem_cons] at h
      rcases h with rfl | h
      · exact ⟨s, by simp, procSub_target env ev m s⟩
      · obtain ⟨t, ht, hto⟩ := ih h
        exact ⟨t, List.mem_cons_of_mem _ ht, hto⟩

theorem dispatch_empty (env : Env) (st : HandlerState) (ev : WebSocketEvent)
    (h : (regLookup st.subscriptions ev.collection).getD [] = []) :
    dispatch env st ev = (st, []) := by
  simp only [dispatch, h]
  rfl

theorem onSubscribe_error_eq (env : Env) (st : HandlerState) (c : Nat)
    (msg : SubscribeMessage) (schema : Schema) (e : Err)
    (hs : env.getSchema = .ok schema)
    (hv : (!(accAdmin (getAcc st.clientAcc c))
        && !(schema.collections.contains msg.collection)) = false)
    (hr : readPayload env (candidate env st c msg) (getAcc st.clientAcc c)
        schema "init" = .error e) :
    onSubscribe env st c msg =
      ({ st with subscriptions := unsubscribeReg st.subscriptions c msg.uid
               , nextSid := st.nextSid + 1 }, [.error c (.svc e)]) := by
  have heq := onSubscribe_eq env st c msg
  rw [hs] at heq
  simp only [hv, Bool.false_eq_true, if_neg, not_false_eq_true,
    candidate_uid] at heq
  rw [hr] at heq
  simpa using heq

theorem onSubscribe_ok_eq (env : Env) (st : HandlerState) (c : Nat)
    (msg : SubscribeMessage) (schema : Schema) (res : SubResult)
    (hs : env.getSchema = .ok schema)
    (hv : (!(accAdmin (getAcc st.clientAcc c))
        && !(schema.collections.contains msg.collection)) = false)
    (hr : readPayload env (candidate env st c msg) (getAcc st.clientAcc c)
        schema "init" = .ok res) :
    onSubscribe env st c msg =
      ({ st with
          subscriptions :=
            subscribeReg (unsubscribeReg st.subscriptions c msg.uid)
              (candidate env st c msg)
        , nextSid := st.nextSid + 1 },
        if msg.item.isSome then []
        else [.send c ⟨res.event, res.payload, res.meta, msg.uid⟩]) := by
  have heq := onSubscribe_eq env st c msg
  rw [hs] at heq
  simp only [hv, Bool.false_eq_true, if_neg, not_false_eq_true,
    candidate_uid, candidate_item] at heq
  rw [hr] at heq
  by_cases hi : msg.item.isSome = true
  · simp only [hi, if_true] at heq ⊢
    simpa using heq
  · simp only [Bool.not_eq_true] at hi
    simp only [hi, Bool.false_eq_true, if_neg, not_false_eq_true] at heq ⊢
    simpa using heq

/-! ### The claims -/

/-- Claim C7: for every module mutation hook invocation, the event published
on the bus carries `action` equal to the mutation kind, `collection` equal to
the mutated collection, `payload` equal to the hook payload or the empty
record when absent, a `key` field for create events and a `keys` list for
update and delete events. -/
theorem c7_module_event_shape (args : HookArgs) :
    buildModuleEvent .create args
        = { action := .create, collection := args.collection
          , payload := args.payload.getD [], key := some args.key
          , keys := none } ∧
      buildModuleEvent .update args
        = { action := .update, collection := args.collection
          , payload := args.payload.getD [], key := none
          , keys := some args.keys } ∧
      buildModuleEvent .delete args
        = { action := .delete, collection := args.collection
          , payload := args.payload.getD [], key := none
          , keys := some args.keys } :=
  ⟨rfl, rfl, rfl⟩

/-- Claim C2: a change event dispatches only to subscriptions registered under
its resource type: when no subscription is registered for the event's
collection, `dispatch` leaves the state unchanged and sends nothing at all,
and every output of a dispatch targets the client of a subscription in the
snapshot taken for that collection — subscriptions on other collections are
never sent anything. -/
theorem c2_dispatch_only_matching (env : Env) (st : HandlerState)
    (ev : WebSocketEvent) :
    ((regLookup st.subscriptions ev.collection).getD [] = [] →
        dispatch env st ev = (st, [])) ∧
      ∀ o ∈ (dispatch env st ev).2,
        ∃ s ∈ (regLookup st.subscriptions ev.collection).getD [],
          o.target = s.client := by
  constructor
  · exact dispatch_empty env st ev
  · intro o ho
    have hm : o ∈ (dispatchLoop env ev st.clientAcc
        ((regLookup st.subscriptions ev.collection).getD [])).2 := by
      simpa [dispatch] using ho
    exact dispatchLoop_mem_target env ev hm

/-- Witness for C2 at a concrete input: a dispatch on a collection with no
registered subscription does nothing. -/
theorem c2_dispatch_only_matching_witness :
    dispatch env0 st0 ⟨.update, "x", [], none, none⟩ = (st0, []) :=
  (c2_dispatch_only_matching env0 st0 ⟨.update, "x", [], none, none⟩).1
    (by decide)

/-- Claim C3: dispatch isolates per-subscriber failures: the outputs list has
exactly one entry per subscription of the snapshot for the event's collection,
and the i-th output is produced by that subscription's own `procSub` step
(under the accountability map threaded past the earlier subscriptions) and is
addressed to that subscription's own client — so one subscriber's failing
accountability refresh, schema fetch or read yields an error frame to that
client only, while every other subscription's delivery is still computed and
pushed. -/
theorem c3_dispatch_isolates_errors (env : Env) (st : HandlerState)
    (ev : WebSocketEvent) :
    (dispatch env st ev).2.length
        = ((regLookup st.subscriptions ev.collection).getD []).length ∧
      ∀ i s, ((regLookup st.subscriptions ev.collection).getD [])[i]? = some s →
        (dispatch env st ev).2[i]? = some ((procSub env ev
              (dispatchLoop env ev st.clientAcc
                (((regLookup st.subscriptions ev.collection).getD []).take i)).1
              s).2)
          ∧ ((procSub env ev
              (dispatchLoop env ev st.clientAcc
                (((regLookup st.subscriptions ev.collection).getD []).take i)).1
              s).2).target = s.client := by
  constructor
  · show ((dispatchLoop env ev st.clientAcc
        ((regLookup st.subscriptions ev.collection).getD [])).2).length = _
    exact dispatchLoop_length env ev _ _
  · intro i s hs
    refine ⟨?_, procSub_target env ev _ s⟩
    show ((dispatchLoop env ev st.clientAcc
        ((regLookup st.subscriptions ev.collection).getD [])).2)[i]? = _
    rw [dispatchLoop_getQ, hs]
    rfl

/-- Witness for C3 at a concrete input: client 1's accountability refresh
fails and client 1 alone receives an error frame, while client 2's
subscription in the same dispatch still receives its payload. -/
theorem c3_dispatch_isolates_errors_witness :
    (dispatch envRefreshFail stDis evUpd).2[0]? = some (.error 1 (.svc 3))
      ∧ (dispatch envRefreshFail stDis evUpd).2[1]?
          = some (.send 2 ⟨"update", [], none, some "a"⟩) := by
  have h := (c3_dispatch_isolates_errors envRefreshFail stDis evUpd).2
  constructor
  · have h0 := (h 0 subA1 (by decide)).1
    rw [h0]
    rfl
  · have h1 := (h 1 subA2 (by decide)).1
    rw [h1]
    rfl

/-- Claim C8: for every dispatched event and every subscription in its
snapshot, the handler refreshes that connection's current accountability and
re-fetches the schema before performing that subscription's read: whenever
those calls succeed (under the accountability map as threaded past the
earlier subscriptions of the same dispatch), the frame pushed at that
subscription's position is exactly the read result computed under the freshly
refreshed accountability and fresh schema, and the refreshed accountability
is stored back on the connection.  Nothing cached at subscribe time enters
the computation. -/
theorem c8_dispatch_fresh_context (env : Env) (st : HandlerState)
    (ev : WebSocketEvent) (i : Nat) (sub : Subscription) (a : Acc)
    (sch : Schema) (res : SubResult)
    (hsnap : ((regLookup st.subscriptions ev.collection).getD [])[i]?
        = some sub)
    (hracc : env.refreshAcc (getAcc
        (dispatchLoop env ev st.clientAcc
          (((regLookup st.subscriptions ev.collection).getD []).take i)).1
        sub.client) = .ok a)
    (hsch : env.getSchema = .ok sch)
    (hread : readPayload env sub (some a) sch (actionName ev.action)
        = .ok res) :
    (dispatch env st ev).2[i]?
        = some (.send sub.client ⟨res.event, res.payload, res.meta, sub.uid⟩)
      ∧ (procSub env ev
            (dispatchLoop env ev st.clientAcc
              (((regLookup st.subscriptions ev.collection).getD []).take i)).1
            sub).1
          = setAcc
              (dispatchLoop env ev st.clientAcc
                (((regLookup st.subscriptions ev.collection).getD []).take i)).1
              sub.client (some a) := by
  have hps := procSub_ok_eq env ev
    (dispatchLoop env ev st.clientAcc
      (((regLookup st.subscriptions ev.collection).getD []).take i)).1
    sub a sch res hracc hsch hread
  constructor
  · show ((dispatchLoop env ev st.clientAcc
        ((regLookup st.subscriptions ev.collection).getD [])).2)[i]? = _
    rw [dispatchLoop_getQ, hsnap]
    simp [hps]
  · rw [hps]

/-- Witness for C8 at a concrete input: the second subscription of a
two-subscription dispatch is pushed the read computed under its freshly
refreshed accountability and the fresh schema. -/
theorem c8_dispatch_fresh_context_witness :
    (dispatch env0 stC8 evUpd).2[1]?
        = some (.send 2 ⟨"update", [], none, some "a"⟩)
      ∧ (procSub env0 evUpd
            (dispatchLoop env0 evUpd stC8.clientAcc
              (((regLookup stC8.subscriptions evUpd.collection).getD []).take 1)).1
            subA2).1
          = setAcc
              (dispatchLoop env0 evUpd stC8.clientAcc
                (((regLookup stC8.subscriptions evUpd.collection).getD []).take 1)).1
              2 (some ⟨false, 2⟩) :=
  c8_dispatch_fresh_context env0 stC8 evUpd 1 subA2 ⟨false, 2⟩ ⟨["c"]⟩
    ⟨"update", [], none⟩ (by decide) rfl rfl rfl

/-- Claim C1, counterexample: after a sequence of validated SUBSCRIBE requests
(connection 1 subscribes uid "a", then connection 2 subscribes uid "a" twice),
connection 2 ends up holding TWO subscriptions with uid "a": the remove step
of the re-subscribe found connection 1's subscription first and therefore
removed nothing, so the id is duplicated within connection 2. -/
theorem c1_counterexample :
    countUid (run env0 st0
      [.sub 1 msgUidA, .sub 2 msgUidA, .sub 2 msgUidA]) 2 "a" = 2 := by
  decide

/-- Claim C1 (amended): subscription ids stay unique within a connection
provided no other connection's subscriptions are in play: for every run that
starts from an empty registry and consists only of SUBSCRIBE requests of the
single connection `c`, the connection holds at most one subscription per
defined uid afterwards (a same-id SUBSCRIBE replaces, not duplicates). -/
theorem c1_uid_unique_single_connection (env : Env) (c : Nat)
    (ca : List (Nat × Option Acc)) (msgs : List ClientMsg)
    (hc : ∀ x ∈ msgs, ∃ m, x = ClientMsg.sub c m) (u : String) :
    countUid (run env ⟨[], ca, 0⟩ msgs) c u ≤ 1 := by
  rw [countUid_eq]
  exact (inv_run (inv_empty c ca) msgs hc).2.2 u

/-- Witness for the amended C1: re-subscribing twice with uid "a" on a single
connection leaves at most one subscription with that uid. -/
theorem c1_uid_unique_single_connection_witness :
    countUid (run env0 ⟨[], [], 0⟩ [.sub 1 msgUidA, .sub 1 msgUidA]) 1 "a"
      ≤ 1 :=
  c1_uid_unique_single_connection env0 1 [] [.sub 1 msgUidA, .sub 1 msgUidA]
    (by
      intro x hx
      rcases List.mem_cons.1 hx with rfl | hx
      · exact ⟨msgUidA, rfl⟩
      · rcases List.mem_cons.1 hx with rfl | hx
        · exact ⟨msgUidA, rfl⟩
        · cases hx) "a"

/-- Claim C4: for a SUBSCRIBE that passes collection validation, the candidate
subscription is registered exactly when the initial read succeeds: when the
read fails, the candidate is absent from the registry and the error is
reported to the requesting connection as the only output; when it succeeds,
the candidate is in the registry. -/
theorem c4_registered_iff_read_ok (env : Env) (st : HandlerState) (c : Nat)
    (msg : SubscribeMessage) (schema : Schema)
    (hs : env.getSchema = .ok schema)
    (hv : (!(accAdmin (getAcc st.clientAcc c))
        && !(schema.collections.contains msg.collection)) = false)
    (hb : sidsBelow st.subscriptions st.nextSid)
    (hk : regKeysNodup st.subscriptions) :
    (∀ e, readPayload env (candidate env st c msg) (getAcc st.clientAcc c)
          schema "init" = .error e →
        candidate env st c msg ∉
            allSubsReg (onSubscribe env st c msg).1.subscriptions
          ∧ (onSubscribe env st c msg).2 = [.error c (.svc e)])
      ∧ ∀ res, readPayload env (candidate env st c msg)
          (getAcc st.clientAcc c) schema "init" = .ok res →
        candidate env st c msg ∈
            allSubsReg (onSubscribe env st c msg).1.subscriptions := by
  constructor
  · intro e hr
    rw [onSubscribe_error_eq env st c msg schema e hs hv hr]
    refine ⟨?_, rfl⟩
    intro hmem
    have hlt := sidsBelow_unsubscribeReg c msg.uid hb _ hmem
    rw [candidate_sid] at hlt
    exact lt_irrefl _ hlt
  · intro res hr
    rw [onSubscribe_ok_eq env st c msg schema res hs hv hr]
    have hk1 := regKeysNodup_unsubscribeReg c msg.uid hk
    have hfresh : ∀ t ∈ allSubsReg (unsubscribeReg st.subscriptions c msg.uid),
        t.sid ≠ (candidate env st c msg).sid := by
      intro t ht
      have := sidsBelow_unsubscribeReg c msg.uid hb t ht
      rw [candidate_sid]
      omega
    exact (subscribeReg_perm hk1 hfresh).mem_iff.2 (List.mem_cons_self _ _)

/-- Witness for C4: a failing initial read (error 7) leaves the candidate
unregistered and reports the error; the same SUBSCRIBE with a succeeding read
registers the candidate. -/
theorem c4_registered_iff_read_ok_witness :
    (candidate envFail st0 1 msgUidA ∉
          allSubsReg (onSubscribe envFail st0 1 msgUidA).1.subscriptions
        ∧ (onSubscribe envFail st0 1 msgUidA).2 = [.error 1 (.svc 7)])
      ∧ candidate env0 st0 1 msgUidA ∈
          allSubsReg (onSubscribe env0 st0 1 msgUidA).1.subscriptions := by
  constructor
  · exact (c4_registered_iff_read_ok envFail st0 1 msgUidA ⟨["c"]⟩ rfl
      (by decide) (by simp [sidsBelow, allSubsReg, st0])
      (by simp [regKeysNodup, st0])).1 7 rfl
  · exact (c4_registered_iff_read_ok env0 st0 1 msgUidA ⟨["c"]⟩ rfl
      (by decide) (by simp [sidsBelow, allSubsReg, st0])
      (by simp [regKeysNodup, st0])).2 ⟨"init", [], none⟩ rfl

/-- Claim C9: a validated SUBSCRIBE without uid first removes ALL of the
connection's existing subscriptions across every collection (not only a
same-id one), then performs the initial read, and registers the new candidate
only on success; consequently the only subscription of that connection that
can remain is the new candidate itself. -/
theorem c9_no_uid_removes_all (env : Env) (st : HandlerState) (c : Nat)
    (msg : SubscribeMessage) (schema : Schema)
    (hs : env.getSchema = .ok schema)
    (hv : (!(accAdmin (getAcc st.clientAcc c))
        && !(schema.collections.contains msg.collection)) = false)
    (hu : msg.uid = none) :
    ((onSubscribe env st c msg).1.subscriptions
        = match readPayload env (candidate env st c msg)
            (getAcc st.clientAcc c) schema "init" with
          | .ok _ => subscribeReg (removeAllFor st.subscriptions c)
              (candidate env st c msg)
          | .error _ => removeAllFor st.subscriptions c)
      ∧ ∀ s ∈ allSubsReg (onSubscribe env st c msg).1.subscriptions,
          s.client = c → s = candidate env st c msg := by
  cases hr : readPayload env (candidate env st c msg) (getAcc st.clientAcc c)
      schema "init" with
  | error e =>
      rw [onSubscribe_error_eq env st c msg schema e hs hv hr]
      constructor
      · rw [hu]
        rfl
      · intro s hsm hsc
        rw [hu] at hsm
        rw [show unsubscribeReg st.subscriptions c none
            = removeAllFor st.subscriptions c from rfl,
          removeAllFor_allSubs] at hsm
        have hf := (List.mem_filter.1 hsm).2
        simp [hsc] at hf
  | ok res =>
      rw [onSubscribe_ok_eq env st c msg schema res hs hv hr]
      constructor
      · rw [hu]
        rfl
      · intro s hsm hsc
        rw [hu] at hsm
        rcases mem_allSubs_subscribeReg hsm with h1 | h1
        · exfalso
          rw [show unsubscribeReg st.subscriptions c none
              = removeAllFor st.subscriptions c from rfl,
            removeAllFor_allSubs] at h1
          have hf := (List.mem_filter.1 h1).2
          simp [hsc] at hf
        · exact h1

/-- Witness for C9: with two subscriptions of different connections in the
registry, a uid-less SUBSCRIBE of connection 1 deletes connection 1's old
subscription (connection 2's survives) and registers the new candidate. -/
theorem c9_no_uid_removes_all_witness :
    (onSubscribe env0 stAB 1 msgNoUid).1.subscriptions
        = subscribeReg (removeAllFor stAB.subscriptions 1)
            (candidate env0 stAB 1 msgNoUid)
      ∧ ∀ s ∈ allSubsReg (onSubscribe env0 stAB 1 msgNoUid).1.subscriptions,
          s.client = 1 → s = candidate env0 stAB 1 msgNoUid := by
  have h := c9_no_uid_removes_all env0 stAB 1 msgNoUid ⟨["c"]⟩ rfl
    (by decide) rfl
  exact ⟨h.1, h.2⟩

/-- Claim C5, counterexample: a validated single-item SUBSCRIBE whose initial
read succeeds registers the subscription but sends NO frame at all — in
particular no `event:"init"` frame — refuting the claimed initial push for
single-item mode. -/
theorem c5_counterexample :
    (onSubscribe env0 st0 1 msgItem).2 = []
      ∧ (onSubscribe env0 st0 1 msgItem).1.subscriptions = [("c", [subItem])]
      ∧ readPayload env0 (candidate env0 st0 1 msgItem)
          (getAcc st0.clientAcc 1) ⟨["c"]⟩ "init"
          = .ok ⟨"init", [("id", "42")], none⟩ :=
  ⟨by decide, by decide, rfl⟩

/-- Claim C5 (amended): a validated single-item SUBSCRIBE whose initial read
succeeds registers the subscription but pushes no init frame (the code sends
the init frame only for collection-mode subscriptions); a subsequent update
event on that collection then yields exactly one push with event `"update"`
whose payload is the fresh single-item read of the item's key. -/
theorem c5_single_item_no_init_then_update (env : Env) :
    (∀ st c msg schema res k,
        env.getSchema = .ok schema →
        (!(accAdmin (getAcc st.clientAcc c))
            && !(schema.collections.contains msg.collection)) = false →
        msg.item = some k →
        readPayload env (candidate env st c msg) (getAcc st.clientAcc c)
            schema "init" = .ok res →
        sidsBelow st.subscriptions st.nextSid →
        regKeysNodup st.subscriptions →
        (onSubscribe env st c msg).2 = []
          ∧ candidate env st c msg ∈
              allSubsReg (onSubscribe env st c msg).1.subscriptions)
      ∧ ∀ st (ev : WebSocketEvent) sub a sch p k,
          ev.action = .update →
          regLookup st.subscriptions ev.collection = some [sub] →
          sub.item = some k →
          env.refreshAcc (getAcc st.clientAcc sub.client) = .ok a →
          env.getSchema = .ok sch →
          env.readOne sch (some a) sub.collection k (sub.query.getD default)
              = .ok p →
          (dispatch env st ev).2
            = [.send sub.client ⟨"update", p,
                (if (sub.query.getD default).meta then
                    some (env.getMeta sch (some a) sub.collection
                      (sub.query.getD default))
                  else none), sub.uid⟩] := by
  constructor
  · intro st c msg schema res k hs hv hitem hr hb hk
    rw [onSubscribe_ok_eq env st c msg schema res hs hv hr]
    constructor
    · simp [hitem]
    · have hk1 := regKeysNodup_unsubscribeReg c msg.uid hk
      have hfresh : ∀ t ∈ allSubsReg (unsubscribeReg st.subscriptions c msg.uid),
          t.sid ≠ (candidate env st c msg).sid := by
        intro t ht
        have := sidsBelow_unsubscribeReg c msg.uid hb t ht
        rw [candidate_sid]
        omega
      exact (subscribeReg_perm hk1 hfresh).mem_iff.2 (List.mem_cons_self _ _)
  · intro st ev sub a sch p k hact hsnap hitem hracc hsch hread
    have hrp : readPayload env sub (some a) sch (actionName ev.action)
        = .ok ⟨"update", p,
            (if (sub.query.getD default).meta then
                some (env.getMeta sch (some a) sub.collection
                  (sub.query.getD default))
              else none)⟩ := by
      rw [hact]
      simp [readPayload, getSinglePayload, hitem, hread, actionName]
    simp only [dispatch, hsnap, Option.getD_some]
    simp [dispatchLoop, procSub, hracc, hsch, hrp]

/-- Witness for the amended C5: a single-item subscribe pushes nothing and
registers; the next update event on the collection pushes exactly one
`"update"` frame with the freshly read item. -/
theorem c5_single_item_no_init_then_update_witness :
    ((onSubscribe env0 st0 1 msgItem).2 = []
        ∧ candidate env0 st0 1 msgItem ∈
            allSubsReg (onSubscribe env0 st0 1 msgItem).1.subscriptions)
      ∧ (dispatch env0 stItem evUpd).2
          = [.send 1 ⟨"update", [("id", "42")], none, some "i"⟩] := by
  constructor
  · exact (c5_single_item_no_init_then_update env0).1 st0 1 msgItem ⟨["c"]⟩
      ⟨"init", [("id", "42")], none⟩ 42 rfl (by decide) rfl rfl
      (by simp [sidsBelow, allSubsReg, st0]) (by simp [regKeysNodup, st0])
  · have h := (c5_single_item_no_init_then_update env0).2 stItem evUpd subItem
      ⟨false, 0⟩ ⟨["c"]⟩ [("id", "42")] 42 rfl (by decide) rfl rfl rfl rfl
    simpa using h

/-- Claim C6, counterexample: connection 2 owns a subscription with uid "a",
yet remove-by-id for connection 2 and uid "a" changes nothing: the
registry-order-first subscription with uid "a" belongs to connection 1, and
the handler only checks ownership of that single first match. -/
theorem c6_counterexample :
    unsubscribeReg regAB 2 (some "a") = regAB
      ∧ subA2 ∈ allSubsReg regAB ∧ subA2.client = 2
      ∧ subA2.uid = some "a" := by
  decide

/-- Claim C6 (amended): remove-by-id removes the connection's subscription
with id u precisely when the registry-order-first subscription with uid u is
owned by that connection (then exactly that one subscription is removed); in
every other case — the first match belongs to another connection, or no
subscription with uid u exists at all, and in particular whenever the
connection owns no subscription with id u — it is a no-op that raises no
error and changes no state. -/
theorem c6_remove_by_id (reg : Registry) (c : Nat) (u : String) :
    (∀ s, getSubscription reg u = some s → s.client = c →
        regKeysNodup reg → regKeyed reg → sidsNodup reg →
        (allSubsReg reg).Perm
          (s :: allSubsReg (unsubscribeReg reg c (some u))))
      ∧ (∀ s, getSubscription reg u = some s → s.client ≠ c →
          unsubscribeReg reg c (some u) = reg)
      ∧ (getSubscription reg u = none → unsubscribeReg reg c (some u) = reg)
      ∧ ((∀ s ∈ allSubsReg reg, s.client = c → s.uid ≠ some u) →
          unsubscribeReg reg c (some u) = reg) := by
  refine ⟨?_, ?_, ?_, ?_⟩
  · intro s hg hc hknd hkey hsid
    have hm := (getSubscription_some hg).1
    simp only [unsubscribeReg, hg]
    rw [if_pos (by simpa using hc)]
    exact regDelete_perm hknd hkey hsid hm
  · intro s hg hc
    simp only [unsubscribeReg, hg]
    rw [if_neg (by simpa using hc)]
  · intro hg
    simp only [unsubscribeReg, hg]
  · intro hnone
    cases hg : getSubscription reg u with
    | none => simp only [unsubscribeReg, hg]
    | some s =>
        obtain ⟨hm, hu⟩ := getSubscription_some hg
        by_cases hc : s.client = c
        · exact absurd hu (hnone s hm hc)
        · simp only [unsubscribeReg, hg]
          rw [if_neg (by simpa using hc)]

/-- Witness for the amended C6: removal of exactly the owned first match
(connection 1), a no-op for connection 2 which owns a uid-"a" subscription
that is not the registry-order-first match, and a no-op for connection 3
which owns nothing with that uid. -/
theorem c6_remove_by_id_witness :
    (allSubsReg regAB).Perm
        (subA1 :: allSubsReg (unsubscribeReg regAB 1 (some "a")))
      ∧ unsubscribeReg regAB 2 (some "a") = regAB
      ∧ unsubscribeReg regAB 3 (some "a") = regAB := by
  refine ⟨?_, ?_, ?_⟩
  · exact (c6_remove_by_id regAB 1 "a").1 subA1 rfl rfl
      (by simp [regKeysNodup, regAB])
      (by simp [regKeyed, regAB, subA1, subA2])
      (by simp [sidsNodup, allSubsReg, regAB, subA1, subA2])
  · exact (c6_remove_by_id regAB 2 "a").2.1 subA1 rfl (by decide)
  · exact (c6_remove_by_id regAB 3 "a").2.2.2 (by decide)

/-- Claim C10, counterexample: connection 2 already owns a subscription with
uid "a"; its re-subscribe with uid "a" whose initial read fails leaves that
OLD subscription registered (the remove step missed it because connection 1's
same-uid subscription comes first in registry order), so the connection is NOT
left without a subscription with that id. -/
theorem c10_counterexample :
    (onSubscribe envFail stAB 2 msgUidA).1.subscriptions = regAB
      ∧ countUid (onSubscribe envFail stAB 2 msgUidA).1 2 "a" = 1
      ∧ (onSubscribe envFail stAB 2 msgUidA).2 = [.error 2 (.svc 7)] := by
  decide

/-- Claim C10 (amended): when the connection's subscription with id u is the
registry-order-first match for u and its only one with that id, a re-subscribe
with id u whose initial read fails removes the old subscription and registers
no new one — the connection is left with no subscription with id u — and the
error is reported to the connection. -/
theorem c10_failed_resubscribe_drops_old (env : Env) (st : HandlerState)
    (c : Nat) (msg : SubscribeMessage) (schema : Schema) (u : String)
    (s0 : Subscription) (e : Err)
    (hs : env.getSchema = .ok schema)
    (hv : (!(accAdmin (getAcc st.clientAcc c))
        && !(schema.collections.contains msg.collection)) = false)
    (hu : msg.uid = some u)
    (hg : getSubscription st.subscriptions u = some s0)
    (hc0 : s0.client = c)
    (hone : (allSubsReg st.subscriptions).countP (uidP c u) = 1)
    (hknd : regKeysNodup st.subscriptions) (hkey : regKeyed st.subscriptions)
    (hsid : sidsNodup st.subscriptions)
    (hr : readPayload env (candidate env st c msg) (getAcc st.clientAcc c)
        schema "init" = .error e) :
    countUid (onSubscribe env st c msg).1 c u = 0
      ∧ (onSubscribe env st c msg).2 = [.error c (.svc e)] := by
  rw [onSubscribe_error_eq env st c msg schema e hs hv hr]
  refine ⟨?_, rfl⟩
  show (allSubsReg (unsubscribeReg st.subscriptions c msg.uid)).countP
    (uidP c u) = 0
  rw [hu]
  simp only [unsubscribeReg, hg]
  rw [if_pos (by simpa using hc0)]
  obtain ⟨hm, hu0⟩ := getSubscription_some hg
  have heq := countP_regDelete hknd hkey hsid hm (uidP c u)
  have hp : uidP c u s0 = true := by simp [uidP, hc0, hu0]
  rw [hp] at heq
  simp only [if_true] at heq
  omega

/-- Witness for the amended C10: in a single-connection registry, a
re-subscribe with uid "a" whose read fails leaves the connection with no
subscription with uid "a" and reports the error. -/
theorem c10_failed_resubscribe_drops_old_witness :
    countUid (onSubscribe envFail ⟨[("c", [subA1])], [], 1⟩ 1 msgUidA).1
        1 "a" = 0
      ∧ (onSubscribe envFail ⟨[("c", [subA1])], [], 1⟩ 1 msgUidA).2
          = [.error 1 (.svc 7)] :=
  c10_failed_resubscribe_drops_old envFail ⟨[("c", [subA1])], [], 1⟩ 1 msgUidA
    ⟨["c"]⟩ "a" subA1 7 rfl (by decide) rfl rfl rfl (by decide)
    (by simp [regKeysNodup])
    (by simp [regKeyed, subA1])
    (by simp [sidsNodup, allSubsReg])
    rfl

end DirectusWS
